import Mathlib

/-!
Shallow embedding of the wall-layer decomposition engine of
`SplitLayers.extension/.../MockBreakupWalls.pushbutton/script.py`.

Python floats are modelled as rationals (`ℚ`); Revit `ElementId`s as
integers; fallible host calls as explicit `Option`s or boolean oracles.
Field and function names follow the Python source (with the leading
underscore dropped).
-/

namespace PWall

/-- `_WIDTH_EPS = 1e-6` from the script. -/
def WIDTH_EPS : ℚ := 1 / 1000000

/-- `_OFFSET_TOLERANCE = 1e-4` from the script. -/
def OFFSET_TOLERANCE : ℚ := 1 / 10000

/-- Python's `round(x, 6)` (banker's rounding at ties), on rationals. -/
def pyRound6 (q : ℚ) : ℚ :=
  let t : ℚ := q * 1000000
  let f : ℤ := ⌊t⌋
  let r : ℤ :=
    if t - (f : ℚ) = 1 / 2 then (if f % 2 = 0 then f else f + 1)
    else if t - (f : ℚ) < 1 / 2 then f else f + 1
  (r : ℚ) / 1000000

/-! ### Assembly model: `_structure_layers_data` -/

/-- One raw compound-structure layer as read from the host type:
width, material element id (`-1`/`InvalidElementId` encoded as `none`),
and layer-function enum value. -/
structure RawLayer where
  width : ℚ
  materialId : Option ℤ
  function : Option ℤ
  deriving Repr, DecidableEq

/-- The per-layer record built by `_structure_layers_data`: 1-based
index, width, cumulative `start`/`end` offsets across the section, the
material/function data and core / first / last flags. -/
structure LayerInfo where
  index : ℤ
  width : ℚ
  startOff : ℚ
  endOff : ℚ
  materialId : Option ℤ
  function : Option ℤ
  isCore : Bool
  isFirst : Bool
  isLast : Bool
  deriving Repr, DecidableEq

/-- The cumulative-offset loop of `_structure_layers_data`: walks the
layer list accumulating `position`, producing one `LayerInfo` per raw
layer.  `firstCore`/`lastCore` are the host's core-layer index range
(`-1` when absent), `count` the total number of layers. -/
def layersLoop (firstCore lastCore : ℤ) (count : ℕ) :
    ℕ → ℚ → List RawLayer → List LayerInfo
  | _, _, [] => []
  | idx, position, l :: rest =>
      let start := position
      let endOff := start + l.width
      { index := (idx : ℤ) + 1
        width := l.width
        startOff := start
        endOff := endOff
        materialId := l.materialId
        function := l.function
        isCore := decide (firstCore ≠ -1 ∧ lastCore ≠ -1 ∧
          firstCore ≤ (idx : ℤ) ∧ (idx : ℤ) ≤ lastCore)
        isFirst := decide (idx = 0)
        isLast := decide (idx = count - 1) } ::
      layersLoop firstCore lastCore count (idx + 1) endOff rest

/-- Result record of `_structure_layers_data`. -/
structure LayersData where
  data : List LayerInfo
  totalWidth : ℚ
  coreStart : ℚ
  coreEnd : ℚ
  deriving Repr

/-- `_structure_layers_data(structure)`: builds the per-layer records
with cumulative offsets, the total width, and the core span (falling
back to `0` / `totalWidth` when there is no core range). -/
def structureLayersData (layers : List RawLayer) (firstCore lastCore : ℤ) :
    LayersData :=
  let count := layers.length
  let data := layersLoop firstCore lastCore count 0 0 layers
  let totalWidth := (layers.map RawLayer.width).sum
  let coreStart :=
    if h : data ≠ [] ∧ firstCore ≠ -1 ∧ 0 ≤ firstCore ∧ firstCore.toNat < data.length
    then (data.get ⟨firstCore.toNat, h.2.2.2⟩).startOff else 0
  let coreEnd :=
    if h : data ≠ [] ∧ lastCore ≠ -1 ∧ 0 ≤ lastCore ∧ lastCore.toNat < data.length
    then (data.get ⟨lastCore.toNat, h.2.2.2⟩).endOff else totalWidth
  ⟨data, totalWidth, coreStart, coreEnd⟩

/-- The degenerate-layer filter applied by `_breakup_wall`
(`[item for item in layer_data if item['width'] > _WIDTH_EPS]`). -/
def filterLayers (data : List LayerInfo) : List LayerInfo :=
  data.filter (fun item => WIDTH_EPS < item.width)

/-- The re-indexing pass of `_breakup_wall` that rewrites
`is_first`/`is_last` after filtering. -/
def reindexLayers (data : List LayerInfo) : List LayerInfo :=
  let lastIndex := data.length - 1
  data.mapIdx (fun idx item =>
    { item with isFirst := decide (idx = 0), isLast := decide (idx = lastIndex) })

/-! ### `_reference_offset` (Placement Engine) -/

/-- Integer values of the Revit `WallLocationLine` enum:
`WallCenterline = 0`, `CoreCenterline = 1`, `FinishFaceExterior = 2`,
`FinishFaceInterior = 3`, `CoreExterior = 4`, `CoreInterior = 5`.
`_reference_offset(value, ...)` first coerces the raw integer to the
enum (falling back to `WallCenterline` on failure), then checks the
`WallCenterline` tuple (whose `getattr` members `Centerline` and
`LineCenter` do not exist and default to `WallCenterline`), then
`FinishFaceExterior` and `FinishFaceInterior`.  The next comparison
reads `WallLocationLine.CoreFaceExterior` — a member that does not
exist in the API (the real names are `CoreExterior`/`CoreInterior`)
and, unlike every other uncertain name in this function, is not
`getattr`/`hasattr` guarded — so any value surviving the first three
checks (1, 4 and 5) raises `AttributeError` there; `none` models that
uncaught exception.  The `core_start`/`core_end`/core-centerline
returns and the final default after it are unreachable. -/
def referenceOffset (locationLineValue : ℤ) (totalWidth coreStart coreEnd : ℚ) :
    Option ℚ :=
  let locationLine : ℤ :=
    if 0 ≤ locationLineValue ∧ locationLineValue ≤ 5 then locationLineValue else 0
  if locationLine = 0 then some (totalWidth / 2)
  else if locationLine = 2 then some 0
  else if locationLine = 3 then some totalWidth
  else none

/-! ### `_shrink_curve` (Placement Engine) -/

/-- A bound host curve, reduced to its parameter interval.  Revit lines
are arc-length parametrized, so `curve.Length` equals the parameter
range `endParam - startParam`. -/
structure MCurve where
  startParam : ℚ
  endParam : ℚ
  deriving Repr, DecidableEq

/-- Curve length (equal to the parameter range; see `MCurve`). -/
def MCurve.length (c : MCurve) : ℚ := c.endParam - c.startParam

/-- `_shrink_curve(curve, shrink_distance, min_length=1e-6)`: returns a
copy of the curve symmetrically trimmed by the requested distance,
clamped so that at least `min_length` of curve remains; degenerate
inputs are returned unchanged.  The trimmed-curve branch computes
`param_delta = (half_shrink / length) * param_range` and trims via
`CreateTrimmedCurve`. -/
def shrinkCurve (c : MCurve) (shrinkDistance : ℚ) (minLength : ℚ := 1 / 1000000) :
    MCurve :=
  -- shrink := abs(shrink_distance)
  if |shrinkDistance| ≤ minLength then c
  -- length := curve.Length
  else if c.length ≤ minLength then c
  -- max_shrink := max(0, length - min_length)
  else if max 0 (c.length - minLength) ≤ minLength then c
  -- shrink := min(shrink, max_shrink); half_shrink := shrink / 2;
  -- param_range := end_param - start_param;
  -- param_delta := (half_shrink / length) * param_range
  else if 0 < c.endParam - c.startParam then
    if c.startParam
          + min |shrinkDistance| (max 0 (c.length - minLength)) / 2 / c.length
            * (c.endParam - c.startParam)
        < c.endParam
          - min |shrinkDistance| (max 0 (c.length - minLength)) / 2 / c.length
            * (c.endParam - c.startParam) then
      ⟨c.startParam
          + min |shrinkDistance| (max 0 (c.length - minLength)) / 2 / c.length
            * (c.endParam - c.startParam),
        c.endParam
          - min |shrinkDistance| (max 0 (c.length - minLength)) / 2 / c.length
            * (c.endParam - c.startParam)⟩
    else c
  else c

/-! ### Type resolution cache: `_make_signature`,
`_find_existing_single_layer_type`, `_clone_wall_type_for_layer` -/

/-- `TypeSignature`: `(round(width, 6), materialValue, functionValue)`. -/
abbrev Signature := ℚ × ℤ × ℤ

/-- `_make_signature(layer_info)`: the material contributes its id when
it is a valid (positive) element id, `-1` otherwise; the function
contributes its enum integer, `-1` when absent. -/
def makeSignature (l : LayerInfo) : Signature :=
  let materialValue : ℤ :=
    match l.materialId with
    | some m => if 0 < m then m else -1
    | none => -1
  let functionValue : ℤ :=
    match l.function with
    | some f => f
    | none => -1
  (pyRound6 l.width, materialValue, functionValue)

/-- A `WallType` of the host model, reduced to its element id and its
compound-structure layers. -/
structure HostWallType where
  id : ℤ
  layers : List RawLayer
  deriving Repr, DecidableEq

/-- The structural-match test of the scan loop in
`_find_existing_single_layer_type`: exactly one layer, width within
`_WIDTH_EPS`, material id equal when the signature specifies one,
function equal when the signature specifies one. -/
def typeMatchesSignature (sig : Signature) (t : HostWallType) : Bool :=
  match t.layers with
  | [l] =>
      if WIDTH_EPS < |l.width - sig.1| then false
      else
        let materialCandidate : ℤ :=
          match l.materialId with
          | some m => if 0 < m then m else -1
          | none => -1
        if sig.2.1 ≠ -1 ∧ materialCandidate ≠ sig.2.1 then false
        else if sig.2.2 ≠ -1 then
          match l.function with
          | some f => decide (f = sig.2.2)
          | none => false
        else true
  | _ => false

/-- `_SIGNATURE_CACHE` as an association list with first-match lookup
(dict-get semantics; insertion prepends). -/
def cacheLookup (cache : List (Signature × ℤ)) (sig : Signature) : Option ℤ :=
  match cache with
  | [] => none
  | (s, t) :: rest => if s = sig then some t else cacheLookup rest sig

/-- Batch-scoped state threaded through type resolution: the signature
cache, the host model's wall types (the `FilteredElementCollector`
source), and a fresh-id supply standing for element-id allocation by
`Duplicate`. -/
structure TypeCacheState where
  cache : List (Signature × ℤ)
  hostTypes : List HostWallType
  nextId : ℤ
  deriving Repr

/-- Which path of `_clone_wall_type_for_layer` produced the type. -/
inductive ResolveEvent where
  | cacheHit
  | scanHit
  | created
  deriving Repr, DecidableEq

/-- `_find_existing_single_layer_type(signature)`: cache hit returns
immediately; otherwise the host types are scanned for a structural
match, which is cached; otherwise `None`. -/
def findExistingSingleLayerType (σ : TypeCacheState) (sig : Signature) :
    Option (ℤ × ResolveEvent) × TypeCacheState :=
  match cacheLookup σ.cache sig with
  | some t => (some (t, .cacheHit), σ)
  | none =>
      match σ.hostTypes.find? (typeMatchesSignature sig) with
      | some t => (some (t.id, .scanHit), { σ with cache := (sig, t.id) :: σ.cache })
      | none => (none, σ)

/-- `_clone_wall_type_for_layer(source_type, layer_info)`: resolve via
`_find_existing_single_layer_type` first; on miss duplicate the source
type (fresh element id), rebuild it as a single-layer compound
structure (`CompoundStructureLayer(width, function or Finish1,
material_id)`, where `or` replaces an absent or falsy (0) function by
`Finish1 = 4`), and record it in the cache.  Naming/retry bookkeeping
of `Duplicate` does not affect the resolved reference and is omitted. -/
def cloneWallTypeForLayer (σ : TypeCacheState) (l : LayerInfo) :
    ℤ × ResolveEvent × TypeCacheState :=
  let sig := makeSignature l
  match findExistingSingleLayerType σ sig with
  | (some (t, ev), σ') => (t, ev, σ')
  | (none, σ') =>
      let newLayerFunction : ℤ :=
        match l.function with
        | some f => if f = 0 then 4 else f
        | none => 4
      let newType : HostWallType :=
        { id := σ'.nextId
          layers := [⟨l.width, l.materialId, some newLayerFunction⟩] }
      (newType.id, .created,
        { σ' with
            nextId := σ'.nextId + 1
            hostTypes := σ'.hostTypes ++ [newType]
            cache := (sig, newType.id) :: σ'.cache })

/-- Folding a whole batch of layer resolutions through the state. -/
def resolveAll (σ : TypeCacheState) (ls : List LayerInfo) : TypeCacheState :=
  ls.foldl (fun σ l => (cloneWallTypeForLayer σ l).2.2) σ

/-! ### Join reconciler data: `_normalize_join_meta`, `_invert_join_meta`,
`_entry_identity`, `_enqueue_pending_join` -/

/-- A produced-layer record as assembled in `_handle_layer_joins`
(`layer_records`): 1-based layer index, function, width, material,
the created wall's element id, and the lateral offset data. -/
structure JoinLayer where
  index : ℤ
  function : Option ℤ
  width : ℚ
  materialId : Option ℤ
  wallId : Option ℤ
  offset : Option ℚ
  referenceOffset : Option ℚ
  deriving Repr, DecidableEq

/-- A layer-join cache entry: the source wall's type id and its
produced layer records. -/
structure JoinEntry where
  wallTypeId : Option ℤ
  layers : List JoinLayer
  deriving Repr, DecidableEq

/-- Cut-precedence metadata attached to a join request. -/
structure JoinMeta where
  selfCuts : Option Bool
  allowMismatch : Bool
  deriving Repr, DecidableEq

/-- `_normalize_join_meta(meta)`: missing metadata normalizes to
`{'self_cuts': None, 'allow_mismatch': False}`. -/
def normalizeJoinMeta : Option JoinMeta → JoinMeta
  | some m => ⟨m.selfCuts, m.allowMismatch⟩
  | none => ⟨none, false⟩

/-- `_invert_join_meta(join_meta)`: negates `self_cuts` when present,
keeps `allow_mismatch`. -/
def invertJoinMeta : Option JoinMeta → JoinMeta
  | some m => ⟨m.selfCuts.map (fun b => !b), m.allowMismatch⟩
  | none => ⟨none, false⟩

/-- Python-2 ordering used by `sorted` on possibly-`None` ids:
`None` sorts below every integer. -/
def optIdLE : Option ℤ → Option ℤ → Bool
  | none, _ => true
  | some _, none => false
  | some a, some b => decide (a ≤ b)

/-- Insertion step of the sort. -/
def insertOptId (x : Option ℤ) : List (Option ℤ) → List (Option ℤ)
  | [] => [x]
  | y :: ys => if optIdLE x y then x :: y :: ys else y :: insertOptId x ys

/-- `sorted(layer_ids)` under `optIdLE`. -/
def sortOptIds : List (Option ℤ) → List (Option ℤ)
  | [] => []
  | x :: xs => insertOptId x (sortOptIds xs)

/-- The identity of a queue entry: `(wall_type_key, tuple(sorted(layer
wall-ids)))`; `None` when the entry has no layers. -/
abbrev EntryIdentity := Option ℤ × List (Option ℤ)

/-- `_entry_identity(entry)`. -/
def entryIdentity (entry : JoinEntry) : Option EntryIdentity :=
  let layerIds := entry.layers.map JoinLayer.wallId
  if layerIds.isEmpty then none
  else some (entry.wallTypeId, sortOptIds layerIds)

/-- An item of `_PENDING_LAYER_JOINS`.  Current code appends the
three-field dict shape; the tuple and bare-entry shapes are the legacy
forms still accepted by the scan loops. -/
inductive PendingItem where
  | record (entry : JoinEntry) (meta : JoinMeta) (identity : Option EntryIdentity)
  | pair (entry : JoinEntry) (meta : Option JoinMeta)
  | bare (entry : JoinEntry)
  deriving Repr, DecidableEq

/-- The identity the de-duplication scan of `_enqueue_pending_join`
attributes to a queued item (the stored identity for the dict shape,
a recomputed one otherwise). -/
def itemIdentity : PendingItem → Option EntryIdentity
  | .record _ _ i => i
  | .pair e _ => entryIdentity e
  | .bare e => entryIdentity e

/-- The normalized metadata the scan attributes to a queued item. -/
def itemMeta : PendingItem → JoinMeta
  | .record _ m _ => normalizeJoinMeta (some m)
  | .pair _ m => normalizeJoinMeta m
  | .bare _ => normalizeJoinMeta none

/-- `_PENDING_LAYER_JOINS`, a `defaultdict(list)` keyed by target wall
id. -/
def Pending := ℤ → List PendingItem

/-- `_enqueue_pending_join(target_wall_id, entry, meta)`: refuses a
missing target or entry, refuses an entry without identity (no
layers), drops exact duplicates (same identity and same normalized
metadata already queued for the target), else appends the dict-shaped
item. -/
def enqueuePendingJoin (pending : Pending) (targetWallId : Option ℤ)
    (entry : Option JoinEntry) (meta : Option JoinMeta) : Pending :=
  match targetWallId, entry with
  | none, _ => pending
  | some _, none => pending
  | some target, some e =>
      let normalizedMeta := normalizeJoinMeta meta
      match entryIdentity e with
      | none => pending
      | some identity =>
          let items := pending target
          if items.any (fun item =>
              decide (itemIdentity item = some identity ∧ itemMeta item = normalizedMeta))
          then pending
          else fun t =>
            if t = target then items ++ [.record e normalizedMeta (some identity)]
            else pending t

/-! ### Placement pipeline of `_breakup_wall` (per-layer curves) -/

/-- 3-vectors over ℚ (host `XYZ`). -/
abbrev Vec3 := ℚ × ℚ × ℚ

/-- `_negate_vector(vector)`: `None` yields `XYZ.Zero`, otherwise the
componentwise negation (`vector.Negate()`). -/
def negateVector : Option Vec3 → Vec3
  | none => (0, 0, 0)
  | some v => (-v.1, -v.2.1, -v.2.2)

/-- `_scale_vector(vector, scale)`: `None` yields `XYZ.Zero`, otherwise
componentwise multiplication. -/
def scaleVector : Option Vec3 → ℚ → Vec3
  | none, _ => (0, 0, 0)
  | some v, c => (v.1 * c, v.2.1 * c, v.2.2 * c)

/-- A derived placement curve as a term over the opaque host curve
primitives: the source wall's location curve, symmetric shrinking
(`_shrink_curve`), and translation
(`CreateTransformed(Transform.CreateTranslation(v))`). -/
inductive PlacedCurve where
  | source
  | shrunk (c : PlacedCurve) (d : ℚ)
  | translated (c : PlacedCurve) (v : Vec3)
  deriving Repr, DecidableEq

/-- The per-layer placement computation of `_breakup_wall`: filter the
degenerate layers, re-index `is_first`/`is_last`, and for each
surviving layer emit the source curve shrunk by the layer's width
(zero for the first and the last layer) and translated by
`inward * ((start+end)/2 - reference_offset)`.  `orientation` is the
wall's (unit) orientation normal from `_ensure_orientation_vector`;
`inward` is its negation (the subsequent `Normalize()` is the identity
on a unit vector).  When `_reference_offset` raises (core location
lines, see `referenceOffset`), the exception escapes
`_build_wall_context` — whose call site in `_breakup_wall` catches only
`ValueError` — so the element aborts before any placement is computed:
modeled as `none`. -/
def breakupPlacements (rawLayers : List RawLayer) (fc lc : ℤ)
    (locationLine : ℤ) (orientation : Vec3) : Option (List PlacedCurve) :=
  let ld := structureLayersData rawLayers fc lc
  match referenceOffset locationLine ld.totalWidth ld.coreStart ld.coreEnd with
  | none => none
  | some refOff =>
      some ((reindexLayers (filterLayers ld.data)).map (fun layer =>
        .translated
          (.shrunk .source (if layer.isFirst || layer.isLast then 0 else layer.width))
          (scaleVector (some (negateVector (some orientation)))
            ((layer.startOff + layer.endOff) / 2 - refOff))))

/-! ### Decomposition orchestration: the transaction flow of
`_breakup_wall` -/

/-- Host-call outcomes external to the engine: whether
`_clone_wall_type_for_layer` resolves a type for the i-th surviving
layer, whether `Wall.Create` succeeds for it, and whether
`doc.Delete(wall.Id)` succeeds. -/
structure BreakupOracles where
  typeResolved : ℕ → Bool
  wallCreated : ℕ → Bool
  deleteOk : Bool

/-- The observable document state for one source element: whether the
source wall still exists and which derived layer walls exist. -/
structure DocState where
  sourceAlive : Bool
  derivedWalls : List ℕ
  deriving Repr, DecidableEq

/-- Per-element result statuses of `_breakup_wall`. -/
inductive BreakupStatus where
  | success
  | error
  | cancelled
  deriving Repr, DecidableEq

/-- The result record returned by `_breakup_wall`. -/
structure BreakupResult where
  status : BreakupStatus
  created : ℕ
  deriving Repr, DecidableEq

/-- The transactional skeleton of `_breakup_wall` over `layersCount`
surviving layers: inside `Transaction.Start()` the loop skips layers
whose type resolution or wall creation fails; if no wall was created
the transaction is rolled back (`NoLayersProduced` path); if the final
source deletion fails the transaction is rolled back; otherwise it
commits with the source gone and the derived walls durable.  Rollback
restores exactly the pre-transaction document state. -/
def createdLayerIds (layersCount : ℕ) (o : BreakupOracles) : List ℕ :=
  (List.range layersCount).filter (fun i => o.typeResolved i && o.wallCreated i)

def breakupWall (layersCount : ℕ) (o : BreakupOracles) (s : DocState) :
    BreakupResult × DocState :=
  if (createdLayerIds layersCount o).isEmpty then
    ({ status := .error, created := 0 }, s)
  else if o.deleteOk then
    ({ status := .success, created := (createdLayerIds layersCount o).length },
      { sourceAlive := false, derivedWalls := s.derivedWalls ++ createdLayerIds layersCount o })
  else
    ({ status := .error, created := 0 }, s)

/-! ### Hosted-fixture migration: `_collect_hosted_instances` /
`_rehost_instances` -/

/-- The snapshot `_collect_hosted_instances` takes of one hosted
fixture before any mutation. -/
structure FixtureInfo where
  id : ℤ
  symbol : Option ℤ
  levelId : Option ℤ
  locationPoint : Option Vec3
  locationCurve : Option MCurve
  handFlipped : Bool
  faceFlipped : Bool
  deriving Repr, DecidableEq

/-- A fixture instance re-created by `_rehost_instances` on a derived
wall. -/
structure PlacedFixture where
  host : ℤ
  symbol : ℤ
  locationPoint : Option Vec3
  locationCurve : Option MCurve
  handFlipped : Bool
  faceFlipped : Bool
  deriving Repr, DecidableEq

/-- `_rehost_instances(instances, new_host_wall, other_walls)`, reduced
to the fixture lifecycle: per snapshot, a missing symbol or missing
location skips the fixture (`continue`); a failed `NewFamilyInstance`
(oracle `createOk`) skips it with a warning; otherwise the fixture is
re-created on the host wall at its original location (curve preferred
over point, as in the source), the hand/face flips are restored onto
the freshly created (unflipped) instance, and the original is deleted.
Returns the created fixtures and the deleted original ids.  The
opening cuts attempted on the remaining layers create openings, not
fixtures, and are outside this model. -/
def rehostInstances (hostWallId : ℤ) (createOk : ℤ → Bool) :
    List FixtureInfo → List PlacedFixture × List ℤ
  | [] => ([], [])
  | info :: rest =>
      match info.symbol with
      | none => rehostInstances hostWallId createOk rest
      | some sym =>
          if info.locationCurve.isNone ∧ info.locationPoint.isNone then
            rehostInstances hostWallId createOk rest
          else if createOk info.id then
            ({ host := hostWallId
               symbol := sym
               locationPoint :=
                 if info.locationCurve.isSome then none else info.locationPoint
               locationCurve := info.locationCurve
               handFlipped := info.handFlipped
               faceFlipped := info.faceFlipped }
                :: (rehostInstances hostWallId createOk rest).1,
             info.id :: (rehostInstances hostWallId createOk rest).2)
          else
            rehostInstances hostWallId createOk rest

/-- The shape `_rehost_instances` re-creates a snapshot into when the
host call succeeds. -/
def recreatedFixture (hostWallId : ℤ) (info : FixtureInfo) : PlacedFixture :=
  { host := hostWallId
    symbol := info.symbol.getD 0
    locationPoint := if info.locationCurve.isSome then none else info.locationPoint
    locationCurve := info.locationCurve
    handFlipped := info.handFlipped
    faceFlipped := info.faceFlipped }

/-! ### Join world: `_join_two_walls` and friends -/

/-- One geometric join in the document, directed: `aCuts` records
whether element `a` is the cutting element. -/
structure JoinRecordW where
  a : ℤ
  b : ℤ
  aCuts : Bool
  deriving Repr, DecidableEq

/-- First matching join for the (unordered) pair, reported from `x`'s
side: `some c` means joined with `x` cutting iff `c`. -/
def joinLookup : List JoinRecordW → ℤ → ℤ → Option Bool
  | [], _, _ => none
  | j :: rest, x, y =>
      if j.a = x ∧ j.b = y then some j.aCuts
      else if j.a = y ∧ j.b = x then some (!j.aCuts)
      else joinLookup rest x y

/-- The document's join graph plus the host behaviours the engine does
not control: the cut order Revit assigns to a fresh join and whether
`JoinGeometry` succeeds for a pair. -/
structure JoinWorld where
  joins : List JoinRecordW
  defaultFirstCuts : ℤ → ℤ → Bool
  joinOk : ℤ → ℤ → Bool

/-- `JoinGeometryUtils.AreElementsJoined`. -/
def areElementsJoined (w : JoinWorld) (x y : ℤ) : Bool :=
  (joinLookup w.joins x y).isSome

/-- `JoinGeometryUtils.SwitchJoinOrder`: flips the cut order of the
join(s) of the pair. -/
def switchJoinOrder (w : JoinWorld) (x y : ℤ) : JoinWorld :=
  { w with joins := w.joins.map (fun j =>
      if (j.a = x ∧ j.b = y) ∨ (j.a = y ∧ j.b = x) then { j with aCuts := !j.aCuts }
      else j) }

/-- `_join_two_walls(first_id, second_id, should_first_cut)`: missing
ids fail; `JoinGeometry` is attempted (caught on failure), then
`AreElementsJoined` gates the result; when a cut order is requested and
`IsCuttingElementInJoin` disagrees, `SwitchJoinOrder` aligns it.  The
join-allowance toggles, `Regenerate` calls and butt-join styling do not
affect the join graph and are omitted. -/
def joinTwoWalls (w : JoinWorld) (firstId secondId : Option ℤ)
    (shouldFirstCut : Option Bool) : Bool × JoinWorld :=
  match firstId, secondId with
  | some first, some second =>
      let w1 :=
        if areElementsJoined w first second then w
        else if w.joinOk first second then
          { w with joins := w.joins ++ [⟨first, second, w.defaultFirstCuts first second⟩] }
        else w
      if areElementsJoined w1 first second then
        match shouldFirstCut with
        | none => (true, w1)
        | some b =>
            match joinLookup w1.joins first second with
            | some isCutting =>
                if isCutting ≠ b then (true, switchJoinOrder w1 first second)
                else (true, w1)
            | none => (true, w1)
      else (false, w1)
  | _, _ => (false, w)

/-! ### Join reconciliation: `_layer_signature_for_join`,
`_match_layer_by_signature`, `_attempt_layer_joins`,
`_handle_layer_joins` -/

/-- `_layer_signature_for_join(layer_info)`:
`(material_key, round(width, 6), function)`. -/
def layerSignatureForJoin (l : JoinLayer) : Option ℤ × ℚ × Option ℤ :=
  (l.materialId, pyRound6 l.width, l.function)

/-- `_get_layer_offset(layer)` on the records built by
`_handle_layer_joins`, which always carry the `offset` key (the
`start`/`end` reconstruction path applies only to records without
it). -/
def getLayerOffset (l : JoinLayer) : Option ℚ := l.offset

/-- `_offset_difference`. -/
def offsetDifference (a b : JoinLayer) : Option ℚ :=
  match getLayerOffset a, getLayerOffset b with
  | some x, some y => some |x - y|
  | _, _ => none

/-- `_offsets_compatible` at the default tolerance `1e-4`. -/
def offsetsCompatible (a b : JoinLayer) : Bool :=
  match offsetDifference a b with
  | none => true
  | some d => decide (d ≤ OFFSET_TOLERANCE)

/-- The candidate scan of `_match_layer_by_signature`, threading the
best-so-far candidate and its offset difference. -/
def matchLoop (target : JoinLayer) (used : List (Option ℤ)) :
    List JoinLayer → Option JoinLayer → Option ℚ → Option JoinLayer
  | [], best, _ => best
  | c :: rest, best, bestDiff =>
      if c.wallId ∈ used then matchLoop target used rest best bestDiff
      else if layerSignatureForJoin c ≠ layerSignatureForJoin target then
        matchLoop target used rest best bestDiff
      else
        match getLayerOffset target with
        | none => some c
        | some _ =>
            match offsetDifference target c with
            | none =>
                match best with
                | none => matchLoop target used rest (some c) bestDiff
                | some _ => matchLoop target used rest best bestDiff
            | some diff =>
                if diff ≤ OFFSET_TOLERANCE then some c
                else
                  match bestDiff with
                  | none => matchLoop target used rest (some c) (some diff)
                  | some bd =>
                      if diff < bd then matchLoop target used rest (some c) (some diff)
                      else matchLoop target used rest best bestDiff

/-- `_match_layer_by_signature(target_layer, candidates, used_ids)`. -/
def matchLayerBySignature (target : JoinLayer) (candidates : List JoinLayer)
    (used : List (Option ℤ)) : Option JoinLayer :=
  matchLoop target used candidates none none

/-- `layers_b_by_index` (`{layer['index']: layer for layer in
layers_b}`): dict comprehension semantics — the last occurrence of an
index wins. -/
def layersByIndex (ls : List JoinLayer) (i : ℤ) : Option JoinLayer :=
  ls.reverse.find? (fun l => l.index = i)

/-- The per-layer loop of `_attempt_layer_joins`, threading the used-id
set, the join world and the joined-any flag. -/
def attemptLoop (layersB : List JoinLayer) (shouldFirstCut : Option Bool) :
    List JoinLayer → List (Option ℤ) → JoinWorld → Bool → Bool × JoinWorld
  | [], _, w, joinedAny => (joinedAny, w)
  | la :: rest, used, w, joinedAny =>
      let lb :=
        match layersByIndex layersB la.index with
        | none => matchLayerBySignature la layersB used
        | some cand =>
            if cand.wallId ∈ used then matchLayerBySignature la layersB used
            else if offsetsCompatible la cand then some cand
            else
              matchLayerBySignature la layersB
                (if cand.wallId.isSome then cand.wallId :: used else used)
      match lb with
      | none => attemptLoop layersB shouldFirstCut rest used w joinedAny
      | some lbv =>
          let res := joinTwoWalls w la.wallId lbv.wallId shouldFirstCut
          if res.1 then
            attemptLoop layersB shouldFirstCut rest (lbv.wallId :: used) res.2 true
          else
            attemptLoop layersB shouldFirstCut rest used res.2 joinedAny

/-- `_attempt_layer_joins(entry_a, entry_b, join_meta)`. -/
def attemptLayerJoins (w : JoinWorld) (entryA entryB : JoinEntry)
    (joinMeta : Option JoinMeta) : Bool × JoinWorld :=
  let allowMismatch :=
    match joinMeta with
    | some m => m.allowMismatch
    | none => false
  if (entryA.wallTypeId = none ∨ entryB.wallTypeId = none
        ∨ entryA.wallTypeId ≠ entryB.wallTypeId) ∧ allowMismatch = false then
    (false, w)
  else
    let shouldFirstCut :=
      match joinMeta with
      | some m => m.selfCuts
      | none => none
    if entryA.layers.isEmpty ∨ entryB.layers.isEmpty then (false, w)
    else attemptLoop entryB.layers shouldFirstCut entryA.layers [] w false

/-- A produced-layer record of `_breakup_wall`
(`{'wall': ..., 'info': ..., 'offset': ..., 'reference_offset': ...}`),
flattened; `wallId` is `none` when the wall reference is missing. -/
structure Produced where
  wallId : Option ℤ
  index : ℤ
  function : Option ℤ
  width : ℚ
  materialId : Option ℤ
  offset : Option ℚ
  referenceOffset : Option ℚ
  deriving Repr, DecidableEq

/-- The `layer_records` construction of `_handle_layer_joins`: records
without a wall are skipped. -/
def mkLayerRecords (produced : List Produced) : List JoinLayer :=
  produced.filterMap (fun r =>
    match r.wallId with
    | none => none
    | some wid =>
        some ⟨r.index, r.function, r.width, r.materialId, some wid,
          r.offset, r.referenceOffset⟩)

/-- A normalized element of `joined_wall_ids` (see
`_collect_joined_wall_ids` / `_normalize_join_info`). -/
structure NeighborInfo where
  id : Option ℤ
  selfCuts : Option Bool
  entry : Option JoinEntry
  allowMismatch : Bool
  deriving Repr, DecidableEq

/-- `_LAYER_JOIN_CACHE` association-list lookup (dict-get; insertion
prepends, first match wins = overwrite semantics). -/
def joinCacheLookup : List (ℤ × JoinEntry) → ℤ → Option JoinEntry
  | [], _ => none
  | (k, e) :: rest, i => if k = i then some e else joinCacheLookup rest i

/-- The entry a queued pending item contributes to
`_attempt_layer_joins`. -/
def pendingEntryOf : PendingItem → JoinEntry
  | .record e _ _ => e
  | .pair e _ => e
  | .bare e => e

/-- The metadata a queued pending item contributes (the legacy bare
shape supplies `{'self_cuts': None}`). -/
def pendingMetaOf : PendingItem → Option JoinMeta
  | .record _ m _ => some m
  | .pair _ m => m
  | .bare _ => some ⟨none, false⟩

/-- The mutable state `_handle_layer_joins` operates on: the layer-join
cache, the pending queue, and the document's join graph. -/
structure JoinState where
  layerJoinCache : List (ℤ × JoinEntry)
  pending : Pending
  world : JoinWorld

/-- `_handle_layer_joins(original_wall_id, wall_type_id,
produced_layers, joined_wall_ids)`: build the layer records, register
the entry in the layer-join cache, flush and attempt the pending joins
queued under this wall's id, then for every recorded neighbour attempt
an immediate join (using its entry or its cached one) and enqueue a
pending join under the neighbour's id with inverted cut metadata. -/
def handleLayerJoins (st : JoinState) (originalWallId : ℤ)
    (wallTypeId : Option ℤ) (produced : List Produced)
    (joinedWallIds : List NeighborInfo) : JoinState :=
  if produced.isEmpty then st
  else
    let layerRecords := mkLayerRecords produced
    if layerRecords.isEmpty then st
    else
      let entry : JoinEntry := ⟨wallTypeId, layerRecords⟩
      let cache1 := (originalWallId, entry) :: st.layerJoinCache
      let pendingItems := st.pending originalWallId
      let pending1 : Pending := fun t => if t = originalWallId then [] else st.pending t
      let w1 := pendingItems.foldl
        (fun w item =>
          (attemptLayerJoins w entry (pendingEntryOf item) (pendingMetaOf item)).2)
        st.world
      let final := joinedWallIds.foldl
        (fun (acc : Pending × JoinWorld) ninfo =>
          match ninfo.id with
          | none => acc
          | some nid =>
              let neighbourEntry :=
                match ninfo.entry with
                | some e => some e
                | none => joinCacheLookup cache1 nid
              let w' :=
                match neighbourEntry with
                | some ne =>
                    (attemptLayerJoins acc.2 entry ne
                      (some ⟨ninfo.selfCuts, ninfo.allowMismatch⟩)).2
                | none => acc.2
              (enqueuePendingJoin acc.1 (some nid) (some entry)
                  (some (invertJoinMeta (some ⟨ninfo.selfCuts, ninfo.allowMismatch⟩))),
                w'))
        (pending1, w1)
      ⟨cache1, final.1, final.2⟩

/-! ### Batch-global caches and the `main()` reset -/

/-- The three module-level mutable caches of the script. -/
structure GlobalCaches where
  signatureCache : List (Signature × ℤ)
  layerJoinCache : List (ℤ × JoinEntry)
  pendingLayerJoins : Pending

/-- The prologue of `main()`: `_LAYER_JOIN_CACHE.clear()` and
`_PENDING_LAYER_JOINS.clear()`, executed before any wall is
processed.  `_SIGNATURE_CACHE` is not cleared there. -/
def mainBatchReset (g : GlobalCaches) : GlobalCaches :=
  { g with layerJoinCache := [], pendingLayerJoins := fun _ => [] }

/-- Concrete global state with a nonempty type cache, as left behind by
a previous batch run in the same session. -/
def staleCaches : GlobalCaches :=
  { signatureCache := [((1, -1, -1), 5)]
    layerJoinCache := [(7, ⟨some 3, []⟩)]
    pendingLayerJoins := fun _ => [] }

/-- Concrete assembly refuting the 1e-6 mass-conservation bound: one
unit-width layer and two degenerate layers of width exactly 1e-6. -/
def c1Layers : List RawLayer :=
  [⟨1, none, none⟩, ⟨1 / 1000000, none, none⟩, ⟨1 / 1000000, none, none⟩]

/-- A concrete surviving layer (index 1, width 1/10, material 3,
function `Structure` = 1). -/
def c3Layer : LayerInfo :=
  ⟨1, 1 / 10, 0, 1 / 10, some 3, some 1, true, true, true⟩

/-- An empty type-resolution state with fresh ids from 100. -/
def c3State : TypeCacheState := ⟨[], [], 100⟩

/-- Oracles where every type resolves but every wall creation fails. -/
def c2Oracles : BreakupOracles := ⟨fun _ => true, fun _ => false, true⟩

/-- A document with the source element alive and no derived walls. -/
def c2Doc : DocState := ⟨true, []⟩

/-- A concrete hosted-fixture snapshot (point-located door, hand
flipped). -/
def c6Fixture : FixtureInfo :=
  ⟨41, some 7, some 2, some (1, 2, 0), none, true, false⟩

/-- A concrete three-layer assembly `[100, 50, 100]` mm expressed in
feet-like units (1/10, 1/20, 1/10) with the middle layer as core. -/
def c8Layers : List RawLayer :=
  [⟨1 / 10, some 11, some 4⟩, ⟨1 / 20, some 12, some 1⟩, ⟨1 / 10, some 11, some 5⟩]

/-- A pending-join entry with one layer. -/
def c10Entry : JoinEntry :=
  ⟨some 2, [⟨1, some 1, 1 / 10, some 3, some 21, some 0, some 0⟩]⟩

/-- The empty pending queue. -/
def c10Empty : Pending := fun _ => []

/-- An empty join world where the host joins every pair and defaults to
the first element cutting. -/
def c5World : JoinWorld := ⟨[], fun _ _ => true, fun _ _ => true⟩

/-- An empty join-reconciliation state over `c5World`. -/
def c5State : JoinState := ⟨[], fun _ => [], c5World⟩

/-- Wall `A`'s single produced layer (derived wall id 101). -/
def c5ProducedA : Produced := ⟨some 101, 1, some 1, 1 / 10, some 3, some 0, some (1 / 20)⟩

/-- Wall `B`'s single produced layer (derived wall id 201). -/
def c5ProducedB : Produced := ⟨some 201, 1, some 1, 1 / 10, some 3, some 0, some (1 / 20)⟩

/-! ### Helper lemmas on the assembly model -/

/-- The cumulative loop does not change the multiset of widths: mapping
`width` over the produced records gives back the raw widths. -/
lemma layersLoop_map_width (fc lc : ℤ) (n : ℕ) :
    ∀ (layers : List RawLayer) (i : ℕ) (p : ℚ),
      (layersLoop fc lc n i p layers).map LayerInfo.width
        = layers.map RawLayer.width := by
  intro layers
  induction layers with
  | nil => intro i p; rfl
  | cons a l ih => intro i p; simp [layersLoop, ih]

/-- Widths of the produced records sum to `totalWidth`. -/
lemma structureLayersData_sum_width (layers : List RawLayer) (fc lc : ℤ) :
    ((structureLayersData layers fc lc).data.map LayerInfo.width).sum
      = (structureLayersData layers fc lc).totalWidth := by
  simp [structureLayersData, layersLoop_map_width]

/-- Splitting the width sum along the degenerate-layer filter. -/
lemma sum_width_filter_split (l : List LayerInfo) :
    ((l.filter (fun i => WIDTH_EPS < i.width)).map LayerInfo.width).sum
      + ((l.filter (fun i => i.width ≤ WIDTH_EPS)).map LayerInfo.width).sum
      = (l.map LayerInfo.width).sum := by
  induction l with
  | nil => simp
  | cons a l ih =>
      by_cases h : WIDTH_EPS < a.width
      · have h' : ¬ a.width ≤ WIDTH_EPS := not_le.mpr h
        simp [List.filter_cons, h, h']
        linarith
      · have h' : a.width ≤ WIDTH_EPS := not_lt.mp h
        simp [List.filter_cons, h, h']
        linarith

/-- Every produced record's width appears among the raw widths. -/
lemma width_mem_of_mem_data (layers : List RawLayer) (fc lc : ℤ)
    (i : LayerInfo) (hi : i ∈ (structureLayersData layers fc lc).data) :
    ∃ l ∈ layers, l.width = i.width := by
  have hmem : i.width ∈ (structureLayersData layers fc lc).data.map LayerInfo.width :=
    List.mem_map_of_mem LayerInfo.width hi
  rw [show (structureLayersData layers fc lc).data
      = layersLoop fc lc layers.length 0 0 layers from rfl,
    layersLoop_map_width] at hmem
  obtain ⟨l, hl, hw⟩ := List.mem_map.1 hmem
  exact ⟨l, hl, hw⟩

/-! ### C1: mass conservation -/

/-- C1 (counterexample): for the assembly `c1Layers`, even when every
surviving layer is created, the summed width of the derived elements
(the layers surviving the `width > 1e-6` filter) differs from the
assembly's `totalWidth` by `2e-6 > 1e-6`: the two degenerate layers are
silently dropped and each contributes `1e-6` of loss. -/
theorem C1_mass_conservation_counterexample :
    ¬ (|(((filterLayers (structureLayersData c1Layers (-1) (-1)).data).map
          LayerInfo.width).sum
        - (structureLayersData c1Layers (-1) (-1)).totalWidth)| ≤ 1 / 1000000) := by
  norm_num [c1Layers, structureLayersData, layersLoop, filterLayers,
    List.filter, WIDTH_EPS, abs]

/-- C1 (amended): the summed width of the surviving layers equals the
assembly's `totalWidth` minus the summed width of the dropped
degenerate layers; when every raw width is nonnegative the discrepancy
is at most `k * 1e-6` where `k` counts the dropped layers, and it is
zero when every produced layer's width exceeds `1e-6`. -/
theorem C1_mass_conservation_amended (layers : List RawLayer) (fc lc : ℤ)
    (hw : ∀ l ∈ layers, 0 ≤ l.width) :
    (((filterLayers (structureLayersData layers fc lc).data).map
        LayerInfo.width).sum
      = (structureLayersData layers fc lc).totalWidth
        - (((structureLayersData layers fc lc).data.filter
            (fun i => i.width ≤ WIDTH_EPS)).map LayerInfo.width).sum)
    ∧ |(((filterLayers (structureLayersData layers fc lc).data).map
          LayerInfo.width).sum
        - (structureLayersData layers fc lc).totalWidth)|
      ≤ ((structureLayersData layers fc lc).data.filter
          (fun i => i.width ≤ WIDTH_EPS)).length * WIDTH_EPS
    ∧ ((∀ i ∈ (structureLayersData layers fc lc).data, WIDTH_EPS < i.width) →
        ((filterLayers (structureLayersData layers fc lc).data).map
          LayerInfo.width).sum
          = (structureLayersData layers fc lc).totalWidth) := by
  set ld := structureLayersData layers fc lc with hld
  have hsplit := sum_width_filter_split ld.data
  have htot : (ld.data.map LayerInfo.width).sum = ld.totalWidth :=
    structureLayersData_sum_width layers fc lc
  have hdropped_le :
      ((ld.data.filter (fun i => i.width ≤ WIDTH_EPS)).map LayerInfo.width).sum
        ≤ ((ld.data.filter (fun i => i.width ≤ WIDTH_EPS)).map LayerInfo.width).length
            * WIDTH_EPS := by
    have h := List.sum_le_card_nsmul
      ((ld.data.filter (fun i => i.width ≤ WIDTH_EPS)).map LayerInfo.width)
      WIDTH_EPS ?_
    · simpa [nsmul_eq_mul] using h
    · intro x hx
      obtain ⟨i, hi, hxw⟩ := List.mem_map.1 hx
      have hcond := List.of_mem_filter hi
      simp only [decide_eq_true_eq] at hcond
      exact hxw ▸ hcond
  have hdropped_nonneg :
      0 ≤ ((ld.data.filter (fun i => i.width ≤ WIDTH_EPS)).map LayerInfo.width).sum := by
    refine List.sum_nonneg ?_
    intro x hx
    obtain ⟨i, hi, hxw⟩ := List.mem_map.1 hx
    obtain ⟨l, hl, hlw⟩ :=
      width_mem_of_mem_data layers fc lc i (List.mem_of_mem_filter hi)
    have := hw l hl
    rw [← hxw, ← hlw]
    exact this
  have heq :
      ((filterLayers ld.data).map LayerInfo.width).sum
        = ld.totalWidth
          - ((ld.data.filter (fun i => i.width ≤ WIDTH_EPS)).map LayerInfo.width).sum := by
    unfold filterLayers
    linarith
  refine ⟨heq, ?_, ?_⟩
  · rw [heq]
    rw [List.length_map] at hdropped_le
    have habs : |ld.totalWidth
        - ((ld.data.filter (fun i => i.width ≤ WIDTH_EPS)).map LayerInfo.width).sum
        - ld.totalWidth|
        = ((ld.data.filter (fun i => i.width ≤ WIDTH_EPS)).map LayerInfo.width).sum := by
      rw [abs_of_nonpos (by linarith)]
      ring
    rw [habs]
    exact le_trans hdropped_le (by simp [List.length_map])
  · intro hall
    have hnil : ld.data.filter (fun i => i.width ≤ WIDTH_EPS) = [] := by
      rw [List.filter_eq_nil_iff]
      intro i hi
      simp only [decide_eq_true_eq, not_le]
      exact hall i hi
    rw [heq, hnil]
    simp

/-- Witness: the amended mass-conservation bound applied to the
concrete assembly `c1Layers`. -/
theorem C1_mass_conservation_amended_witness :
    (∀ l ∈ c1Layers, 0 ≤ l.width) ∧
    |(((filterLayers (structureLayersData c1Layers (-1) (-1)).data).map
          LayerInfo.width).sum
        - (structureLayersData c1Layers (-1) (-1)).totalWidth)|
      ≤ ((structureLayersData c1Layers (-1) (-1)).data.filter
          (fun i => i.width ≤ WIDTH_EPS)).length * WIDTH_EPS :=
  ⟨by norm_num [c1Layers],
    (C1_mass_conservation_amended c1Layers (-1) (-1) (by norm_num [c1Layers])).2.1⟩

/-! ### C4: reference-offset correctness -/

/-- C4: the claimed mapping executes only on the centerline and
finish-face paths.  `WallCenterline` (0) maps to `totalWidth/2`,
`FinishFaceExterior` (2) to `0`, `FinishFaceInterior` (3) to
`totalWidth`, and unrecognized values such as `7` or `-1` (where the
enum coercion raises and falls back to `WallCenterline`) to
`totalWidth/2` — as claimed.  But `CoreCenterline` (1),
`CoreExterior` (4) and `CoreInterior` (5) reach the unguarded
`WallLocationLine.CoreFaceExterior` attribute access, a member the API
does not have, and raise `AttributeError` (`none`) instead of
returning `(coreStart+coreEnd)/2`, `coreStart` and `coreEnd`: the
`core_start`/`core_end` returns in the source are dead code behind a
misspelled enum member. -/
theorem C4_reference_offset_bug (tw cs ce : ℚ) :
    referenceOffset 0 tw cs ce = some (tw / 2) ∧
    referenceOffset 2 tw cs ce = some 0 ∧
    referenceOffset 3 tw cs ce = some tw ∧
    referenceOffset 7 tw cs ce = some (tw / 2) ∧
    referenceOffset (-1) tw cs ce = some (tw / 2) ∧
    referenceOffset 1 tw cs ce = none ∧
    referenceOffset 4 tw cs ce = none ∧
    referenceOffset 5 tw cs ce = none :=
  ⟨rfl, rfl, rfl, rfl, rfl, rfl, rfl, rfl⟩

/-! ### C7: shrink safety -/

/-- C7 (counterexample): a curve of positive length `1e-7` (below the
minimum-length floor `1e-6`) is returned unchanged by
`_shrink_curve`, so the result is shorter than the floor, refuting
"never returns a curve shorter than the minimum length floor" for
arbitrary positive-length curves. -/
theorem C7_shrink_safety_counterexample :
    0 < (⟨0, 1 / 10000000⟩ : MCurve).length ∧
    (shrinkCurve ⟨0, 1 / 10000000⟩ 1).length < 1 / 1000000 := by
  constructor
  · norm_num [MCurve.length]
  · norm_num [shrinkCurve, MCurve.length]

/-- C7 (amended): for every curve whose length exceeds the minimum
length floor `1e-6` and every shrink distance `d`, the shrunk curve is
never shorter than the floor; a distance of at most `1e-6` is treated
as zero (curve unchanged); when the (absolute) distance is feasible it
is trimmed half from each end along the curve's parametrization; and a
distance exceeding the feasible shrink `length - 1e-6` is clamped to
it rather than failing. -/
theorem C7_shrink_safety_amended (c : MCurve) (d : ℚ)
    (h : 1 / 1000000 < c.length) :
    1 / 1000000 ≤ (shrinkCurve c d).length ∧
    (|d| ≤ 1 / 1000000 → shrinkCurve c d = c) ∧
    (1 / 1000000 < |d| → |d| ≤ c.length - 1 / 1000000 →
      1 / 1000000 < c.length - 1 / 1000000 →
      shrinkCurve c d = ⟨c.startParam + |d| / 2, c.endParam - |d| / 2⟩) ∧
    (c.length - 1 / 1000000 < |d| → 1 / 1000000 < c.length - 1 / 1000000 →
      shrinkCurve c d = ⟨c.startParam + (c.length - 1 / 1000000) / 2,
        c.endParam - (c.length - 1 / 1000000) / 2⟩) := by
  have hrange : c.endParam - c.startParam = c.length := rfl
  have hlenpos : 0 < c.length := by
    have h0 : (0 : ℚ) < 1 / 1000000 := by norm_num
    linarith
  have hlen0 : c.length ≠ 0 := ne_of_gt hlenpos
  refine ⟨?_, ?_, ?_, ?_⟩
  · unfold shrinkCurve
    split_ifs with h1 h2 h3 h4 h5
    · exact le_of_lt h
    · exact le_of_lt h
    · exact le_of_lt h
    · -- trimmed branch: the resulting length is `length - min |d| maxShrink`
      set m := min |d| (max 0 (c.length - 1 / 1000000)) with hm
      have hmax : max 0 (c.length - 1 / 1000000) = c.length - 1 / 1000000 := by
        apply max_eq_right; linarith
      have hmle : m ≤ c.length - 1 / 1000000 := by
        rw [hm, hmax]; exact min_le_right _ _
      have hδ : m / 2 / c.length * (c.endParam - c.startParam) = m / 2 := by
        rw [hrange, div_mul_cancel₀ _ hlen0]
      show (1 : ℚ) / 1000000
          ≤ c.endParam - m / 2 / c.length * (c.endParam - c.startParam)
            - (c.startParam + m / 2 / c.length * (c.endParam - c.startParam))
      rw [hδ]
      have hres : c.endParam - m / 2 - (c.startParam + m / 2) = c.length - m := by
        rw [← hrange]; ring
      rw [hres]
      linarith
    · exact le_of_lt h
    · exact le_of_lt h
  · intro hd
    unfold shrinkCurve
    rw [if_pos hd]
  · intro hd1 hd2 hd3
    unfold shrinkCurve
    have hmax : max 0 (c.length - 1 / 1000000) = c.length - 1 / 1000000 := by
      apply max_eq_right; linarith
    rw [if_neg (not_le.mpr hd1), if_neg (not_le.mpr h), hmax,
      if_neg (not_le.mpr hd3), min_eq_left hd2, hrange,
      if_pos hlenpos, div_mul_cancel₀ _ hlen0,
      if_pos (by have := hrange; linarith)]
  · intro hd1 hd2
    unfold shrinkCurve
    have hd1' : 1 / 1000000 < |d| := by linarith
    have hmax : max 0 (c.length - 1 / 1000000) = c.length - 1 / 1000000 := by
      apply max_eq_right; linarith
    rw [if_neg (not_le.mpr hd1'), if_neg (not_le.mpr h), hmax,
      if_neg (not_le.mpr hd2), min_eq_right (le_of_lt hd1), hrange,
      if_pos hlenpos, div_mul_cancel₀ _ hlen0,
      if_pos (by have := hrange; linarith)]

/-- Witness for `C7_shrink_safety_amended`: a unit-length curve shrunk
by `1/2` keeps at least the floor, and is trimmed `1/4` at each end. -/
theorem C7_shrink_safety_amended_witness :
    (1 / 1000000 : ℚ) < (⟨0, 1⟩ : MCurve).length ∧
    1 / 1000000 ≤ (shrinkCurve ⟨0, 1⟩ (1 / 2)).length ∧
    shrinkCurve ⟨0, 1⟩ (1 / 2) = ⟨0 + |(1 : ℚ) / 2| / 2, 1 - |(1 : ℚ) / 2| / 2⟩ := by
  have hlen : (1 / 1000000 : ℚ) < (⟨0, 1⟩ : MCurve).length := by
    norm_num [MCurve.length]
  have h := C7_shrink_safety_amended ⟨0, 1⟩ (1 / 2) hlen
  refine ⟨hlen, h.1, ?_⟩
  exact h.2.2.1 (by rw [abs_of_pos] <;> norm_num)
    (by rw [abs_of_pos] <;> norm_num [MCurve.length])
    (by norm_num [MCurve.length])

/-! ### C3: signature determinism -/

/-- A cache hit makes `_clone_wall_type_for_layer` return the cached
reference and leave the state untouched. -/
lemma cloneWallTypeForLayer_of_cacheHit (σ : TypeCacheState) (l : LayerInfo) (t : ℤ)
    (h : cacheLookup σ.cache (makeSignature l) = some t) :
    cloneWallTypeForLayer σ l = (t, .cacheHit, σ) := by
  simp [cloneWallTypeForLayer, findExistingSingleLayerType, h]

/-- Whatever path resolution takes, afterwards the cache maps the
layer's signature to the returned type reference. -/
lemma cloneWallTypeForLayer_cache_self (σ : TypeCacheState) (l : LayerInfo) :
    cacheLookup (cloneWallTypeForLayer σ l).2.2.cache (makeSignature l)
      = some (cloneWallTypeForLayer σ l).1 := by
  cases hc : cacheLookup σ.cache (makeSignature l) with
  | some t => simp [cloneWallTypeForLayer, findExistingSingleLayerType, hc]
  | none =>
      cases hf : σ.hostTypes.find? (typeMatchesSignature (makeSignature l)) with
      | some t =>
          simp [cloneWallTypeForLayer, findExistingSingleLayerType, hc, hf, cacheLookup]
      | none =>
          simp [cloneWallTypeForLayer, findExistingSingleLayerType, hc, hf, cacheLookup]

/-- Resolving some other layer never evicts an existing cache binding
(insertions only happen for signatures that were absent). -/
lemma cloneWallTypeForLayer_cache_mono (σ : TypeCacheState) (l : LayerInfo)
    (sig : Signature) (t : ℤ) (h : cacheLookup σ.cache sig = some t) :
    cacheLookup (cloneWallTypeForLayer σ l).2.2.cache sig = some t := by
  cases hc : cacheLookup σ.cache (makeSignature l) with
  | some t' =>
      rw [cloneWallTypeForLayer_of_cacheHit σ l t' hc]
      exact h
  | none =>
      have hne : makeSignature l ≠ sig := by
        intro he
        rw [he, h] at hc
        cases hc
      cases hf : σ.hostTypes.find? (typeMatchesSignature (makeSignature l)) with
      | some t' =>
          simp [cloneWallTypeForLayer, findExistingSingleLayerType, hc, hf,
            cacheLookup, hne, h]
      | none =>
          simp [cloneWallTypeForLayer, findExistingSingleLayerType, hc, hf,
            cacheLookup, hne, h]

/-- Cache bindings survive resolving a whole batch of further layers. -/
lemma resolveAll_cache_mono (ls : List LayerInfo) :
    ∀ (σ : TypeCacheState) (sig : Signature) (t : ℤ),
      cacheLookup σ.cache sig = some t →
      cacheLookup (resolveAll σ ls).cache sig = some t := by
  induction ls with
  | nil => intro σ sig t h; exact h
  | cons l ls ih =>
      intro σ sig t h
      exact ih _ _ _ (cloneWallTypeForLayer_cache_mono σ l sig t h)

/-- C3: within one batch, after a layer's signature is resolved once,
any later layer with an equal signature — however many other
resolutions happen in between — resolves to the identical cached type
reference via a pure cache hit that neither creates a type nor changes
the state (so at most one duplicate-creation occurs per distinct
signature); and a cache miss whose signature structurally matches an
existing host type resolves to that scanned type instead of creating
one. -/
theorem C3_signature_determinism (σ : TypeCacheState) (l1 : LayerInfo)
    (rest : List LayerInfo) (l2 : LayerInfo)
    (hsig : makeSignature l2 = makeSignature l1) :
    (cloneWallTypeForLayer (resolveAll (cloneWallTypeForLayer σ l1).2.2 rest) l2).1
        = (cloneWallTypeForLayer σ l1).1
    ∧ (cloneWallTypeForLayer (resolveAll (cloneWallTypeForLayer σ l1).2.2 rest) l2).2.1
        = ResolveEvent.cacheHit
    ∧ (cloneWallTypeForLayer (resolveAll (cloneWallTypeForLayer σ l1).2.2 rest) l2).2.2
        = resolveAll (cloneWallTypeForLayer σ l1).2.2 rest
    ∧ (cacheLookup σ.cache (makeSignature l1) = none →
        ∀ t, σ.hostTypes.find? (typeMatchesSignature (makeSignature l1)) = some t →
          (cloneWallTypeForLayer σ l1).1 = t.id
          ∧ (cloneWallTypeForLayer σ l1).2.1 = ResolveEvent.scanHit) := by
  have hcache := cloneWallTypeForLayer_cache_self σ l1
  have hcache2 := resolveAll_cache_mono rest _ _ _ hcache
  have hclone := cloneWallTypeForLayer_of_cacheHit
    (resolveAll (cloneWallTypeForLayer σ l1).2.2 rest) l2 _ (by rw [hsig]; exact hcache2)
  refine ⟨?_, ?_, ?_, ?_⟩
  · rw [hclone]
  · rw [hclone]
  · rw [hclone]
  · intro hmiss t hfind
    constructor <;>
      simp [cloneWallTypeForLayer, findExistingSingleLayerType, hmiss, hfind]

/-- Witness: resolving the concrete layer `c3Layer` twice from the
empty state returns the identical reference. -/
theorem C3_signature_determinism_witness :
    makeSignature c3Layer = makeSignature c3Layer ∧
    (cloneWallTypeForLayer (resolveAll (cloneWallTypeForLayer c3State c3Layer).2.2 []) c3Layer).1
      = (cloneWallTypeForLayer c3State c3Layer).1 :=
  ⟨rfl, (C3_signature_determinism c3State c3Layer [] c3Layer rfl).1⟩

/-! ### C9: batch-start reset -/

/-- C9 (counterexample): `main()` does not clear `_SIGNATURE_CACHE`:
started on a session state with a stale type cache, the batch begins
with that cache still populated, refuting "both the type-resolution
cache and the pending-join queue are reset to empty". -/
theorem C9_batch_reset_counterexample :
    (mainBatchReset staleCaches).signatureCache ≠ [] := by
  simp [mainBatchReset, staleCaches]

/-- C9 (amended): at the start of every batch run `main()` clears the
pending-join queue and the layer-join cache backing it, but the
type-resolution cache is left untouched and persists across batch runs
within the same interpreter session (it is only initialized empty at
module load). -/
theorem C9_batch_reset_amended (g : GlobalCaches) :
    (mainBatchReset g).layerJoinCache = []
    ∧ (mainBatchReset g).pendingLayerJoins = (fun _ => [])
    ∧ (mainBatchReset g).signatureCache = g.signatureCache :=
  ⟨rfl, rfl, rfl⟩

/-! ### C10: pending-join enqueue idempotence -/

/-- C10: `_enqueue_pending_join` is idempotent — enqueuing the same
(target, entry, metadata) twice equals enqueuing it once; more
generally an entry whose identity and normalized metadata match an
item already queued for the target leaves the queue unchanged; and an
entry with no layers (hence no resolvable identity), a missing target,
or a missing entry is never enqueued. -/
theorem C10_enqueue_idempotent (pending : Pending) (target : ℤ)
    (e : JoinEntry) (meta : Option JoinMeta) :
    (enqueuePendingJoin
        (enqueuePendingJoin pending (some target) (some e) meta)
        (some target) (some e) meta
      = enqueuePendingJoin pending (some target) (some e) meta)
    ∧ (∀ iden, entryIdentity e = some iden →
        (pending target).any (fun item =>
          decide (itemIdentity item = some iden
            ∧ itemMeta item = normalizeJoinMeta meta)) = true →
        enqueuePendingJoin pending (some target) (some e) meta = pending)
    ∧ (e.layers = [] →
        enqueuePendingJoin pending (some target) (some e) meta = pending)
    ∧ enqueuePendingJoin pending none (some e) meta = pending
    ∧ enqueuePendingJoin pending (some target) none meta = pending := by
  have hred : ∀ (p : Pending),
      enqueuePendingJoin p (some target) (some e) meta
        = match entryIdentity e with
          | none => p
          | some identity =>
              if (p target).any (fun item =>
                  decide (itemIdentity item = some identity
                    ∧ itemMeta item = normalizeJoinMeta meta))
              then p
              else fun t =>
                if t = target then
                  p target ++ [.record e (normalizeJoinMeta meta) (some identity)]
                else p t :=
    fun _ => rfl
  refine ⟨?_, ?_, ?_, rfl, rfl⟩
  · cases hid : entryIdentity e with
    | none =>
        have h1 : enqueuePendingJoin pending (some target) (some e) meta = pending := by
          rw [hred, hid]
        rw [h1, h1]
    | some iden =>
        cases hdup : (pending target).any (fun item =>
            decide (itemIdentity item = some iden
              ∧ itemMeta item = normalizeJoinMeta meta)) with
        | true =>
            have h1 : enqueuePendingJoin pending (some target) (some e) meta = pending := by
              rw [hred, hid]
              dsimp only
              rw [if_pos hdup]
            rw [h1, h1]
        | false =>
            have hcond : ¬ ((pending target).any (fun item =>
                decide (itemIdentity item = some iden
                  ∧ itemMeta item = normalizeJoinMeta meta)) = true) := by
              rw [hdup]
              exact Bool.false_ne_true
            have h1 : enqueuePendingJoin pending (some target) (some e) meta
                = fun t =>
                  if t = target then
                    pending target ++ [.record e (normalizeJoinMeta meta) (some iden)]
                  else pending t := by
              rw [hred, hid]
              dsimp only
              rw [if_neg hcond]
            rw [h1, hred, hid]
            dsimp only
            have hany : ((if target = target then
                  pending target
                    ++ [PendingItem.record e (normalizeJoinMeta meta) (some iden)]
                else pending target)).any (fun item =>
                  decide (itemIdentity item = some iden
                    ∧ itemMeta item = normalizeJoinMeta meta)) = true := by
              rw [if_pos rfl, List.any_append]
              simp [itemIdentity, itemMeta, normalizeJoinMeta]
            rw [if_pos hany]
  · intro iden hid hdup
    rw [hred, hid]
    dsimp only
    rw [if_pos hdup]
  · intro h
    have hid : entryIdentity e = none := by simp [entryIdentity, h]
    rw [hred, hid]

/-- Witness: a duplicate enqueue of a concrete one-layer entry leaves
the queue unchanged, and an entry without layers is never enqueued. -/
theorem C10_enqueue_idempotent_witness :
    (enqueuePendingJoin
        (enqueuePendingJoin c10Empty (some 9) (some c10Entry) none)
        (some 9) (some c10Entry) none
      = enqueuePendingJoin c10Empty (some 9) (some c10Entry) none)
    ∧ (⟨some 2, []⟩ : JoinEntry).layers = []
    ∧ enqueuePendingJoin c10Empty (some 9) (some ⟨some 2, []⟩) none = c10Empty :=
  ⟨(C10_enqueue_idempotent c10Empty 9 c10Entry none).1, rfl,
    (C10_enqueue_idempotent c10Empty 9 ⟨some 2, []⟩ none).2.2.1 rfl⟩

/-! ### C2: per-element atomicity -/

/-- C2: when wall creation fails for 100% of the surviving layers,
`_breakup_wall` rolls the transaction back and reports an error: the
source element still exists and no derived element exists (the
document state is exactly the pre-transaction one).  Likewise, when the
final deletion of the source element fails, the whole transaction is
rolled back, so no derived element outlives the source. -/
theorem C2_atomicity (layersCount : ℕ) (o : BreakupOracles) (s : DocState) :
    ((∀ i, i < layersCount → o.wallCreated i = false) →
      breakupWall layersCount o s = ({ status := .error, created := 0 }, s))
    ∧ (o.deleteOk = false →
      breakupWall layersCount o s = ({ status := .error, created := 0 }, s)) := by
  constructor
  · intro h
    have hfil : createdLayerIds layersCount o = [] := by
      rw [createdLayerIds, List.filter_eq_nil_iff]
      intro i hi
      rw [List.mem_range] at hi
      simp [h i hi]
    unfold breakupWall
    rw [hfil]
    rfl
  · intro hdel
    unfold breakupWall
    by_cases hfil : (createdLayerIds layersCount o).isEmpty = true
    · rw [if_pos hfil]
    · rw [if_neg hfil, if_neg (by rw [hdel]; exact Bool.false_ne_true)]

/-- Witness: with oracles refusing every wall creation, decomposing 2
layers leaves the concrete document `c2Doc` untouched. -/
theorem C2_atomicity_witness :
    (∀ i, i < 2 → c2Oracles.wallCreated i = false)
    ∧ breakupWall 2 c2Oracles c2Doc = ({ status := .error, created := 0 }, c2Doc) :=
  ⟨fun _ _ => rfl, (C2_atomicity 2 c2Oracles c2Doc).1 (fun _ _ => rfl)⟩

/-! ### C6: fixture conservation -/

/-- C6: for a decomposition whose fixture snapshots all carry a symbol
and a location and whose host re-creation calls all succeed, the
migrated fixtures are exactly one per original — re-created on the
single chosen host layer at the original location/curve with the
hand/face flip flags restored — so their count equals the original
count, each appears on exactly one derived element, and every original
fixture is deleted. -/
theorem C6_fixture_conservation (hostWallId : ℤ) (createOk : ℤ → Bool)
    (instances : List FixtureInfo)
    (hok : ∀ f ∈ instances, f.symbol ≠ none
      ∧ ¬ (f.locationCurve = none ∧ f.locationPoint = none)
      ∧ createOk f.id = true) :
    (rehostInstances hostWallId createOk instances).1
        = instances.map (recreatedFixture hostWallId)
    ∧ (rehostInstances hostWallId createOk instances).1.length = instances.length
    ∧ (∀ nf ∈ (rehostInstances hostWallId createOk instances).1, nf.host = hostWallId)
    ∧ (rehostInstances hostWallId createOk instances).2
        = instances.map FixtureInfo.id := by
  have hmain : (rehostInstances hostWallId createOk instances).1
      = instances.map (recreatedFixture hostWallId)
      ∧ (rehostInstances hostWallId createOk instances).2
        = instances.map FixtureInfo.id := by
    induction instances with
    | nil => exact ⟨rfl, rfl⟩
    | cons f rest ih =>
        obtain ⟨hsym, hloc, hcr⟩ := hok f (List.mem_cons_self f rest)
        obtain ⟨ih1, ih2⟩ := ih (fun g hg => hok g (List.mem_cons_of_mem f hg))
        cases hs : f.symbol with
        | none => exact absurd hs hsym
        | some sym =>
            have hcond : ¬ (f.locationCurve.isNone = true ∧ f.locationPoint.isNone = true) := by
              intro hc
              exact hloc ⟨Option.isNone_iff_eq_none.mp hc.1, Option.isNone_iff_eq_none.mp hc.2⟩
            constructor
            · show (match f.symbol with
                | none => rehostInstances hostWallId createOk rest
                | some sym =>
                    if f.locationCurve.isNone ∧ f.locationPoint.isNone then
                      rehostInstances hostWallId createOk rest
                    else if createOk f.id then
                      ({ host := hostWallId, symbol := sym,
                         locationPoint :=
                           if f.locationCurve.isSome then none else f.locationPoint,
                         locationCurve := f.locationCurve,
                         handFlipped := f.handFlipped,
                         faceFlipped := f.faceFlipped }
                          :: (rehostInstances hostWallId createOk rest).1,
                       f.id :: (rehostInstances hostWallId createOk rest).2)
                    else rehostInstances hostWallId createOk rest).1
                = (f :: rest).map (recreatedFixture hostWallId)
              rw [hs]
              dsimp only
              rw [if_neg hcond, if_pos hcr, List.map_cons]
              have hhead : recreatedFixture hostWallId f
                  = { host := hostWallId, symbol := sym,
                      locationPoint :=
                        if f.locationCurve.isSome then none else f.locationPoint,
                      locationCurve := f.locationCurve,
                      handFlipped := f.handFlipped,
                      faceFlipped := f.faceFlipped } := by
                simp [recreatedFixture, hs]
              show _ :: (rehostInstances hostWallId createOk rest).1
                = recreatedFixture hostWallId f :: List.map (recreatedFixture hostWallId) rest
              rw [hhead, ih1]
            · show (match f.symbol with
                | none => rehostInstances hostWallId createOk rest
                | some sym =>
                    if f.locationCurve.isNone ∧ f.locationPoint.isNone then
                      rehostInstances hostWallId createOk rest
                    else if createOk f.id then
                      ({ host := hostWallId, symbol := sym,
                         locationPoint :=
                           if f.locationCurve.isSome then none else f.locationPoint,
                         locationCurve := f.locationCurve,
                         handFlipped := f.handFlipped,
                         faceFlipped := f.faceFlipped }
                          :: (rehostInstances hostWallId createOk rest).1,
                       f.id :: (rehostInstances hostWallId createOk rest).2)
                    else rehostInstances hostWallId createOk rest).2
                = (f :: rest).map FixtureInfo.id
              rw [hs]
              dsimp only
              rw [if_neg hcond, if_pos hcr, List.map_cons]
              show f.id :: (rehostInstances hostWallId createOk rest).2
                = f.id :: List.map FixtureInfo.id rest
              rw [ih2]
  refine ⟨hmain.1, ?_, ?_, hmain.2⟩
  · rw [hmain.1, List.length_map]
  · intro nf hnf
    rw [hmain.1] at hnf
    obtain ⟨f, _, hf⟩ := List.mem_map.1 hnf
    rw [← hf]
    rfl

/-- Witness: one concrete door snapshot is conserved through
rehosting onto host wall 10. -/
theorem C6_fixture_conservation_witness :
    (∀ f ∈ [c6Fixture], f.symbol ≠ none
      ∧ ¬ (f.locationCurve = none ∧ f.locationPoint = none)
      ∧ (fun _ => true : ℤ → Bool) f.id = true)
    ∧ (rehostInstances 10 (fun _ => true) [c6Fixture]).1.length = [c6Fixture].length := by
  have hok : ∀ f ∈ [c6Fixture], f.symbol ≠ none
      ∧ ¬ (f.locationCurve = none ∧ f.locationPoint = none)
      ∧ (fun _ => true : ℤ → Bool) f.id = true := by
    intro f hf
    rw [List.mem_singleton] at hf
    subst hf
    refine ⟨by simp [c6Fixture], by simp [c6Fixture], rfl⟩
  exact ⟨hok, (C6_fixture_conservation 10 (fun _ => true) [c6Fixture] hok).2.1⟩

/-! ### C8: derived placement correctness -/

/-- Re-indexing keeps the list length. -/
lemma length_reindexLayers (l : List LayerInfo) :
    (reindexLayers l).length = l.length := by
  simp [reindexLayers]

/-- Re-indexing rewrites exactly the first/last flags from the
position in the filtered list. -/
lemma get_reindexLayers (l : List LayerInfo) (i : ℕ) (h : i < l.length)
    (h' : i < (reindexLayers l).length) :
    (reindexLayers l).get ⟨i, h'⟩
      = { l.get ⟨i, h⟩ with
          isFirst := decide (i = 0), isLast := decide (i = l.length - 1) } := by
  unfold reindexLayers
  rw [List.get_mapIdx]

/-- C8: whenever the reference offset computes — i.e. the element is
not aborted by the core-location-line `AttributeError` (see
`referenceOffset`) — the i-th derived element's placement curve is the
source location curve shrunk by the layer's own width when the layer
is neither first nor last in the filtered stack (by zero when it is),
then translated by `inwardNormal * ((start+end)/2 - referenceOffset)`
with `inwardNormal` the negated orientation normal. -/
theorem C8_derived_placement (r : List RawLayer) (fc lc ll : ℤ) (o : Vec3)
    (refOff : ℚ)
    (href : referenceOffset ll (structureLayersData r fc lc).totalWidth
        (structureLayersData r fc lc).coreStart
        (structureLayersData r fc lc).coreEnd = some refOff)
    (i : ℕ) (hi : i < (filterLayers (structureLayersData r fc lc).data).length) :
    (breakupPlacements r fc lc ll o).isSome = true
    ∧ ((breakupPlacements r fc lc ll o).getD [])[i]?
      = some (PlacedCurve.translated
          (PlacedCurve.shrunk PlacedCurve.source
            (if i = 0 ∨ i = (filterLayers (structureLayersData r fc lc).data).length - 1
             then 0
             else ((filterLayers (structureLayersData r fc lc).data).get ⟨i, hi⟩).width))
          (scaleVector (some (negateVector (some o)))
            ((((filterLayers (structureLayersData r fc lc).data).get ⟨i, hi⟩).startOff
                + ((filterLayers (structureLayersData r fc lc).data).get ⟨i, hi⟩).endOff) / 2
              - refOff))) := by
  have hsome : breakupPlacements r fc lc ll o
      = some ((reindexLayers (filterLayers (structureLayersData r fc lc).data)).map
          (fun layer => PlacedCurve.translated
            (PlacedCurve.shrunk PlacedCurve.source
              (if layer.isFirst || layer.isLast then 0 else layer.width))
            (scaleVector (some (negateVector (some o)))
              ((layer.startOff + layer.endOff) / 2 - refOff)))) := by
    unfold breakupPlacements
    dsimp only
    rw [href]
  have h2 : i < (reindexLayers (filterLayers (structureLayersData r fc lc).data)).length := by
    rw [length_reindexLayers]
    exact hi
  constructor
  · rw [hsome]
    rfl
  · rw [hsome, Option.getD_some, List.getElem?_map, List.getElem?_eq_getElem h2]
    have hgetElem : (reindexLayers (filterLayers (structureLayersData r fc lc).data)).get
        ⟨i, h2⟩
        = (reindexLayers (filterLayers (structureLayersData r fc lc).data))[i] :=
      List.get_eq_getElem _ _
    rw [Option.map_some', ← hgetElem, get_reindexLayers _ _ hi h2]
    by_cases hc : i = 0 ∨ i = (filterLayers (structureLayersData r fc lc).data).length - 1
    · have hb : (decide (i = 0)
          || decide (i = (filterLayers (structureLayersData r fc lc).data).length - 1))
          = true := by
        rcases hc with h | h <;> simp [h]
      simp only [hb, if_pos hc]
      rfl
    · push_neg at hc
      have hb : (decide (i = 0)
          || decide (i = (filterLayers (structureLayersData r fc lc).data).length - 1))
          = false := by
        simp [hc.1, hc.2]
      rw [if_neg (not_or.mpr ⟨hc.1, hc.2⟩)]
      simp [hb]

/-- The concrete assembly `c8Layers` evaluated through the assembly
model: all three layers survive the degenerate filter. -/
lemma c8_filter_eval :
    filterLayers (structureLayersData c8Layers (-1) (-1)).data
      = [⟨1, 1 / 10, 0, 1 / 10, some 11, some 4, false, true, false⟩,
         ⟨2, 1 / 20, 1 / 10, 3 / 20, some 12, some 1, false, false, false⟩,
         ⟨3, 1 / 10, 3 / 20, 1 / 4, some 11, some 5, false, false, true⟩] := by
  norm_num [c8Layers, structureLayersData, layersLoop, filterLayers, WIDTH_EPS]

/-- Witness: the concrete `[100,50,100]`-style assembly `c8Layers` at
the `WallCenterline` location line, where the reference offset computes
to `totalWidth/2`: its middle layer is shrunk by its own width and
translated by the inward normal scaled by its center offset. -/
theorem C8_derived_placement_witness :
    referenceOffset 0 (structureLayersData c8Layers (-1) (-1)).totalWidth
        (structureLayersData c8Layers (-1) (-1)).coreStart
        (structureLayersData c8Layers (-1) (-1)).coreEnd
      = some ((structureLayersData c8Layers (-1) (-1)).totalWidth / 2)
    ∧ 1 < (filterLayers (structureLayersData c8Layers (-1) (-1)).data).length
    ∧ ((breakupPlacements c8Layers (-1) (-1) 0 (0, 1, 0)).getD [])[1]?
      = some (PlacedCurve.translated
          (PlacedCurve.shrunk PlacedCurve.source
            (if (1 : ℕ) = 0 ∨ (1 : ℕ)
                = (filterLayers (structureLayersData c8Layers (-1) (-1)).data).length - 1
             then 0
             else ((filterLayers (structureLayersData c8Layers (-1) (-1)).data).get
                ⟨1, by rw [c8_filter_eval]; norm_num⟩).width))
          (scaleVector (some (negateVector (some (0, 1, 0))))
            ((((filterLayers (structureLayersData c8Layers (-1) (-1)).data).get
                  ⟨1, by rw [c8_filter_eval]; norm_num⟩).startOff
                + ((filterLayers (structureLayersData c8Layers (-1) (-1)).data).get
                  ⟨1, by rw [c8_filter_eval]; norm_num⟩).endOff) / 2
              - (structureLayersData c8Layers (-1) (-1)).totalWidth / 2))) :=
  ⟨rfl, by rw [c8_filter_eval]; norm_num,
    (C8_derived_placement c8Layers (-1) (-1) 0 (0, 1, 0)
      ((structureLayersData c8Layers (-1) (-1)).totalWidth / 2) rfl 1
      (by rw [c8_filter_eval]; norm_num)).2⟩

/-! ### C5: join re-establishment with preserved cut precedence -/

/-- Appending a fresh join record for an unjoined pair makes the pair
joined with the record's cut order. -/
lemma joinLookup_append (l : List JoinRecordW) (x y : ℤ) (c : Bool)
    (h : joinLookup l x y = none) :
    joinLookup (l ++ [⟨x, y, c⟩]) x y = some c := by
  induction l with
  | nil => simp [joinLookup]
  | cons j rest ih =>
      by_cases h1 : j.a = x ∧ j.b = y
      · rw [joinLookup, if_pos h1] at h
        cases h
      · by_cases h2 : j.a = y ∧ j.b = x
        · rw [joinLookup, if_neg h1, if_pos h2] at h
          cases h
        · rw [joinLookup, if_neg h1, if_neg h2] at h
          rw [List.cons_append, joinLookup, if_neg h1, if_neg h2]
          exact ih h


/-- The map underlying `SwitchJoinOrder` flips the reported cut order
of a joined pair. -/
lemma joinLookup_map_switch (l : List JoinRecordW) (x y : ℤ) (c : Bool)
    (h : joinLookup l x y = some c) :
    joinLookup (l.map (fun j =>
        if (j.a = x ∧ j.b = y) ∨ (j.a = y ∧ j.b = x) then { j with aCuts := !j.aCuts }
        else j)) x y
      = some (!c) := by
  induction l with
  | nil => cases h
  | cons j rest ih =>
      by_cases h1 : j.a = x ∧ j.b = y
      · rw [joinLookup, if_pos h1] at h
        injection h with hc
        rw [List.map_cons, if_pos (Or.inl h1), joinLookup]
        show (if j.a = x ∧ j.b = y then some (!j.aCuts) else _) = some (!c)
        rw [if_pos h1, hc]
      · by_cases h2 : j.a = y ∧ j.b = x
        · rw [joinLookup, if_neg h1, if_pos h2] at h
          injection h with hc
          rw [List.map_cons, if_pos (Or.inr h2), joinLookup]
          show (if j.a = x ∧ j.b = y then some (!j.aCuts)
              else if j.a = y ∧ j.b = x then some (!(!j.aCuts)) else _) = some (!c)
          rw [if_neg h1, if_pos h2, ← hc]
        · rw [joinLookup, if_neg h1, if_neg h2] at h
          rw [List.map_cons, if_neg (by tauto), joinLookup]
          show (if j.a = x ∧ j.b = y then some j.aCuts
              else if j.a = y ∧ j.b = x then some (!j.aCuts) else _) = some (!c)
          rw [if_neg h1, if_neg h2]
          exact ih h

/-- `SwitchJoinOrder` flips the reported cut order of a joined pair. -/
lemma joinLookup_switchJoinOrder (w : JoinWorld) (x y : ℤ) (c : Bool)
    (h : joinLookup w.joins x y = some c) :
    joinLookup (switchJoinOrder w x y).joins x y = some (!c) :=
  joinLookup_map_switch w.joins x y c h

/-- `_join_two_walls` on an unjoined pair with a working host join and
a requested cut order: it reports success and leaves the pair joined
with exactly the requested order (switching when the host's default
disagrees). -/
lemma joinTwoWalls_aligns (w : JoinWorld) (x y : ℤ) (b : Bool)
    (hnb : joinLookup w.joins x y = none) (hok : w.joinOk x y = true) :
    (joinTwoWalls w (some x) (some y) (some b)).1 = true
    ∧ joinLookup (joinTwoWalls w (some x) (some y) (some b)).2.joins x y = some b := by
  have hnotJoined : areElementsJoined w x y = false := by
    rw [areElementsJoined, hnb]
    rfl
  have hjoined : joinLookup (w.joins ++ [⟨x, y, w.defaultFirstCuts x y⟩]) x y
      = some (w.defaultFirstCuts x y) := joinLookup_append _ _ _ _ hnb
  have hw1 : areElementsJoined
      { w with joins := w.joins ++ [⟨x, y, w.defaultFirstCuts x y⟩] } x y = true := by
    rw [areElementsJoined]
    show (joinLookup (w.joins ++ [⟨x, y, w.defaultFirstCuts x y⟩]) x y).isSome = true
    rw [hjoined]
    rfl
  unfold joinTwoWalls
  dsimp only
  rw [hnotJoined, if_neg Bool.false_ne_true, if_pos hok, if_pos hw1, hjoined]
  dsimp only
  by_cases hd : w.defaultFirstCuts x y = b
  · rw [if_neg (by simp [hd])]
    exact ⟨rfl, by rw [hjoined, hd]⟩
  · rw [if_pos hd]
    refine ⟨rfl, ?_⟩
    have hsw := joinLookup_switchJoinOrder
      { w with joins := w.joins ++ [⟨x, y, w.defaultFirstCuts x y⟩] } x y
      (w.defaultFirstCuts x y) hjoined
    rw [hsw]
    cases b <;> cases hdf : w.defaultFirstCuts x y <;> simp_all

/-- Processing wall `A` (id `a`) while its neighbour `B` (id `b`) is
not yet decomposed: the join graph is untouched and a pending join is
enqueued under `b` carrying `A`'s produced entry and the inverted cut
metadata (`A` cut `B`, so the queued request says the `B`-side must not
cut). -/
lemma handleLayerJoins_first (σ0 : JoinState) (a b tid wa : ℤ) (pa : Produced)
    (hab : ¬ (a = b))
    (hwa : pa.wallId = some wa)
    (hpa : σ0.pending a = []) (hpb : σ0.pending b = [])
    (hcacheB : joinCacheLookup σ0.layerJoinCache b = none) :
    (handleLayerJoins σ0 a (some tid) [pa] [⟨some b, some true, none, false⟩]).world
        = σ0.world
    ∧ (handleLayerJoins σ0 a (some tid) [pa] [⟨some b, some true, none, false⟩]).pending b
        = [PendingItem.record
            ⟨some tid, [⟨pa.index, pa.function, pa.width, pa.materialId, some wa,
              pa.offset, pa.referenceOffset⟩]⟩
            ⟨some false, false⟩
            (some (some tid, [some wa]))] := by
  constructor
  · simp [handleLayerJoins, mkLayerRecords, hwa, hpa, hpb, joinCacheLookup, hab,
      hcacheB]
  · simp [handleLayerJoins, mkLayerRecords, hwa, hpa, hpb, joinCacheLookup, hab,
      hcacheB, enqueuePendingJoin, entryIdentity, sortOptIds, insertOptId,
      invertJoinMeta, normalizeJoinMeta]

/-- Processing wall `B` with one pending item queued under its id and
no remaining neighbours: the final join graph is the one produced by
attempting that pending join against `B`'s fresh entry. -/
lemma handleLayerJoins_second (σ1 : JoinState) (b tid wb : ℤ) (pb : Produced)
    (item : PendingItem)
    (hwb : pb.wallId = some wb)
    (hpend : σ1.pending b = [item]) :
    (handleLayerJoins σ1 b (some tid) [pb] []).world
      = (attemptLayerJoins σ1.world
          ⟨some tid, [⟨pb.index, pb.function, pb.width, pb.materialId, some wb,
            pb.offset, pb.referenceOffset⟩]⟩
          (pendingEntryOf item) (pendingMetaOf item)).2 := by
  simp [handleLayerJoins, mkLayerRecords, hwb, hpend]

/-- `_attempt_layer_joins` between two same-type single-layer entries
whose layers share an index and have compatible offsets joins the two
layer walls, forwarding the requested cut order. -/
lemma attemptLayerJoins_singleton (w : JoinWorld) (tid : ℤ) (ja jb : JoinLayer)
    (wa wb : ℤ) (sc : Bool)
    (hja : ja.wallId = some wa) (hjb : jb.wallId = some wb)
    (hidx : ja.index = jb.index)
    (hoffc : offsetsCompatible jb ja = true)
    (hjoin1 : (joinTwoWalls w (some wb) (some wa) (some sc)).1 = true) :
    (attemptLayerJoins w ⟨some tid, [jb]⟩ ⟨some tid, [ja]⟩ (some ⟨some sc, false⟩)).2
      = (joinTwoWalls w (some wb) (some wa) (some sc)).2 := by
  have hfind : layersByIndex [ja] jb.index = some ja := by
    simp [layersByIndex, hidx]
  simp [attemptLayerJoins, attemptLoop, hfind, hja, hjb, hoffc, hjoin1]

/-- C5: source wall `A` (id `a`) was joined to neighbour `B` (id `b`)
with `A` cutting `B`; both have wall type `tid` and produce one derived
layer each (`pa` with wall `wa`, `pb` with wall `wb`) of equal layer
index and compatible lateral offsets.  Decomposing `A` first enqueues —
under `B`'s id — a pending join carrying `A`'s entry and the inverted
cut metadata (`self_cuts = false` for the `B` side).  Decomposing `B`
afterwards resolves that pending join: `B`'s matching derived layer is
joined to `A`'s, and the cut order is aligned so that the `B`-side wall
does not cut — the `A`-side layer is still the cutting element. -/
theorem C5_join_reestablishment (σ0 : JoinState) (a b tid wa wb : ℤ)
    (pa pb : Produced)
    (hab : ¬ (a = b))
    (hwa : pa.wallId = some wa) (hwb : pb.wallId = some wb)
    (hidx : pa.index = pb.index)
    (hoffc : offsetsCompatible
        ⟨pb.index, pb.function, pb.width, pb.materialId, some wb,
          pb.offset, pb.referenceOffset⟩
        ⟨pa.index, pa.function, pa.width, pa.materialId, some wa,
          pa.offset, pa.referenceOffset⟩ = true)
    (hpa : σ0.pending a = []) (hpb : σ0.pending b = [])
    (hcacheB : joinCacheLookup σ0.layerJoinCache b = none)
    (hnj : joinLookup σ0.world.joins wb wa = none)
    (hok : σ0.world.joinOk wb wa = true) :
    (handleLayerJoins σ0 a (some tid) [pa] [⟨some b, some true, none, false⟩]).pending b
        = [PendingItem.record
            ⟨some tid, [⟨pa.index, pa.function, pa.width, pa.materialId, some wa,
              pa.offset, pa.referenceOffset⟩]⟩
            ⟨some false, false⟩ (some (some tid, [some wa]))]
    ∧ areElementsJoined
        (handleLayerJoins
          (handleLayerJoins σ0 a (some tid) [pa] [⟨some b, some true, none, false⟩])
          b (some tid) [pb] []).world wb wa = true
    ∧ joinLookup
        (handleLayerJoins
          (handleLayerJoins σ0 a (some tid) [pa] [⟨some b, some true, none, false⟩])
          b (some tid) [pb] []).world.joins wb wa = some false := by
  obtain ⟨hw1, hpend1⟩ :=
    handleLayerJoins_first σ0 a b tid wa pa hab hwa hpa hpb hcacheB
  have halign := joinTwoWalls_aligns σ0.world wb wa false hnj hok
  have hw2 := handleLayerJoins_second
    (handleLayerJoins σ0 a (some tid) [pa] [⟨some b, some true, none, false⟩])
    b tid wb pb _ hwb hpend1
  rw [hw1] at hw2
  simp only [pendingEntryOf, pendingMetaOf] at hw2
  have hattempt := attemptLayerJoins_singleton σ0.world tid
    ⟨pa.index, pa.function, pa.width, pa.materialId, some wa,
      pa.offset, pa.referenceOffset⟩
    ⟨pb.index, pb.function, pb.width, pb.materialId, some wb,
      pb.offset, pb.referenceOffset⟩
    wa wb false rfl rfl hidx hoffc halign.1
  rw [hattempt] at hw2
  refine ⟨hpend1, ?_, ?_⟩
  · rw [hw2, areElementsJoined, halign.2]
    rfl
  · rw [hw2, halign.2]

/-- Witness: walls 1 and 2 (type 5), each producing one derived layer
(101 resp. 201); after both are processed, derived wall 201 is joined
to 101 with 201 not cutting (the `A`-side wall 101 cuts). -/
theorem C5_join_reestablishment_witness :
    (¬ ((1 : ℤ) = 2))
    ∧ offsetsCompatible
        ⟨c5ProducedB.index, c5ProducedB.function, c5ProducedB.width,
          c5ProducedB.materialId, some 201, c5ProducedB.offset,
          c5ProducedB.referenceOffset⟩
        ⟨c5ProducedA.index, c5ProducedA.function, c5ProducedA.width,
          c5ProducedA.materialId, some 101, c5ProducedA.offset,
          c5ProducedA.referenceOffset⟩ = true
    ∧ joinLookup
        (handleLayerJoins
          (handleLayerJoins c5State 1 (some 5) [c5ProducedA]
            [⟨some 2, some true, none, false⟩])
          2 (some 5) [c5ProducedB] []).world.joins 201 101 = some false := by
  have hoffc : offsetsCompatible
      ⟨c5ProducedB.index, c5ProducedB.function, c5ProducedB.width,
        c5ProducedB.materialId, some 201, c5ProducedB.offset,
        c5ProducedB.referenceOffset⟩
      ⟨c5ProducedA.index, c5ProducedA.function, c5ProducedA.width,
        c5ProducedA.materialId, some 101, c5ProducedA.offset,
        c5ProducedA.referenceOffset⟩ = true := by
    norm_num [offsetsCompatible, offsetDifference, getLayerOffset, OFFSET_TOLERANCE,
      c5ProducedA, c5ProducedB]
  refine ⟨by norm_num, hoffc, ?_⟩
  exact (C5_join_reestablishment c5State 1 2 5 101 201 c5ProducedA c5ProducedB
    (by norm_num) rfl rfl rfl hoffc rfl rfl rfl rfl rfl).2.2

end PWall
